import Mathlib

/-!
Shallow embedding of the katrain-bots GTP engine (`analysis_bot.py`).

Real-valued quantities reported by the analysis backend (score leads,
winrates, ownership values, standard deviations, komi) are modelled as
rationals; Python integers are modelled as `Int`.  Fallible operations
(Python exceptions: `IndexError`, `ValueError`, failed list lookups and a
raised `Exception`) are modelled with `Option` / `Except`.

The board/rules implementation (the sgfmill library) is an external
collaborator of the repository.  Per the specification it is only the
capability `play(x, y, color)` / `get(x, y)` where an off-board `get`
yields "empty/none"; it is modelled here as an occupancy map with a pure
placement update (capture resolution is out of scope and no claim depends
on occupancy beyond identity of the map).
-/

namespace AnalysisBot

/-- Stone colors, `b` (Black) and `w` (White), as in the source. -/
inductive Color
  | b
  | w
deriving DecidableEq, Repr

/-- The opposite color; `genmove` computes this for the mover. -/
def Color.opponent : Color → Color
  | .b => .w
  | .w => .b

/-- A move: the `pass` sentinel, or an sgfmill coordinate pair
`(row, col)`, both zero-based.  Python ints are modelled as `Int`. -/
inductive Move
  | pass
  | coords (row col : ℤ)
deriving DecidableEq, Repr

/-- `COLS = 'ABCDEFGHJKLMNOPQRSTUVWXYZ'`: the 25-letter column alphabet
that skips the letter I. -/
def COLS : List Char :=
  ['A', 'B', 'C', 'D', 'E', 'F', 'G', 'H', 'J', 'K', 'L', 'M', 'N',
   'O', 'P', 'Q', 'R', 'S', 'T', 'U', 'V', 'W', 'X', 'Y', 'Z']

/-- Python sequence indexing `l[i]`: negative indices count from the end;
an index out of range raises `IndexError`, modelled as `none`. -/
def pyIndex (l : List Char) (i : ℤ) : Option Char :=
  let j : ℤ := if i < 0 then i + l.length else i
  if j < 0 then none else l[j.toNat]?

/-- Python `list.index(c)`: the first index of `c`, or `ValueError`
(modelled as `none`) when `c` does not occur. -/
def listIndex (c : Char) : List Char → Option ℕ
  | [] => none
  | x :: xs => if x = c then some 0 else (listIndex c xs).map (· + 1)

/-- Numeric value of a decimal digit character. -/
def digitVal (c : Char) : ℕ := c.toNat - 48

/-- Decimal natural-number parsing: a nonempty all-digit string. -/
def parseNat (cs : List Char) : Option ℕ :=
  if cs ≠ [] ∧ cs.all (·.isDigit) then
    some (cs.foldl (fun a c => 10 * a + digitVal c) 0)
  else none

/-- Models Python `int(s)` on strings: an optional sign followed by a
nonempty run of decimal digits; anything else raises `ValueError`
(modelled as `none`). -/
def parseInt (s : String) : Option ℤ :=
  match s.data with
  | '-' :: rest => (parseNat rest).map (fun n => -(n : ℤ))
  | '+' :: rest => (parseNat rest).map (fun n => (n : ℤ))
  | cs => (parseNat cs).map (fun n => (n : ℤ))

/-- Models Python `str(i)` on integers. -/
def intStr (i : ℤ) : String :=
  if i < 0 then "-" ++ Nat.repr (-i).toNat else Nat.repr i.toNat

/-- `sgfmill_to_str` from the source: `pass` maps to `"pass"`, a
coordinate `(y, x)` maps to `COLS[x] + str(y + 1)`.  The `COLS[x]` list
access can raise `IndexError`, modelled with `Option`. -/
def sgfmill_to_str : Move → Option String
  | .pass => some "pass"
  | .coords y x => (pyIndex COLS x).map (fun c => String.mk [c] ++ intStr (y + 1))

/-- `str_to_sgfmill` from the source:
`return int(s[1:]) - 1, COLS.index(s[0])`.  `s[0]` on an empty string
raises `IndexError`; `int(...)` and `COLS.index(...)` can raise
`ValueError`; all are modelled as `none`. -/
def str_to_sgfmill (s : String) : Option (ℤ × ℤ) :=
  match s.data with
  | [] => none
  | c :: rest =>
    match parseInt (String.mk rest), listIndex c COLS with
    | some n, some k => some (n - 1, (k : ℤ))
    | _, _ => none

/-- Board occupancy, standing in for the sgfmill board collaborator:
`size` and a map from `(row, col)` to an optional stone color. -/
structure Board where
  size : ℤ
  stones : ℤ × ℤ → Option Color

/-- The collaborator capability `board.play(row, col, color)`, modelled
as a pure occupancy update (capture resolution is out of scope per the
specification; no claim depends on occupancy beyond identity). -/
def Board.playStone (b : Board) (row col : ℤ) (color : Color) : Board :=
  { b with stones := fun p => if p = (row, col) then some color else b.stones p }
/-- A board with no stones. -/
def emptyBoard (size : ℤ) : Board :=
  { size := size, stones := fun _ => none }

/-- `board_pos(x, y)` from `query_ai_move`: `self.board.get(x, y)` with
`IndexError` mapped to `None`.  Per the specification contract for the
board collaborator, an off-board lookup returns "empty/none". -/
def board_pos (b : Board) (x y : ℤ) : Option Color :=
  if 0 ≤ x ∧ x < b.size ∧ 0 ≤ y ∧ y < b.size then b.stones (x, y) else none

/-- `rootInfo` fields consumed by the engine. -/
structure RootInfo where
  currentPlayer : Color
  scoreLead : ℚ
  winrate : ℚ
  rawVarTimeLeft : ℚ
deriving DecidableEq, Repr

/-- One `moveInfos` entry as consumed by the engine (the fields the
decision logic reads; `ownership` is optional in the backend reply). -/
structure MoveInfo where
  move : Move
  order : ℤ
  visits : ℤ
  scoreLead : ℚ
  scoreStdev : ℚ
  ownership : Option (List ℚ)
deriving DecidableEq, Repr

/-- A backend analysis reply. -/
structure Analysis where
  rootInfo : RootInfo
  moveInfos : List MoveInfo
deriving DecidableEq, Repr

/-- A move candidate after `candidate_moves` augments the raw
`moveInfos` dict with the computed `pointsLost` (the Python
`{'pointsLost': ..., **d}` spread). -/
structure Candidate extends MoveInfo where
  pointsLost : ℚ
deriving DecidableEq, Repr

/-- Build the augmented dict of `candidate_moves`. -/
def mkCandidate (d : MoveInfo) (pl : ℚ) : Candidate := ⟨d, pl⟩

/-- The Python sort key `(d['order'], d['pointsLost'])` compared
lexicographically (tuple comparison). -/
def candLE (a b : Candidate) : Prop :=
  a.order < b.order ∨ (a.order = b.order ∧ a.pointsLost ≤ b.pointsLost)

instance : DecidableRel candLE := fun a b => by
  unfold candLE; infer_instance

instance : IsTotal Candidate candLE := ⟨by
  intro a b
  unfold candLE
  rcases lt_trichotomy a.order b.order with h | h | h
  · exact Or.inl (Or.inl h)
  · rcases le_total a.pointsLost b.pointsLost with h2 | h2
    · exact Or.inl (Or.inr ⟨h, h2⟩)
    · exact Or.inr (Or.inr ⟨h.symm, h2⟩)
  · exact Or.inr (Or.inl h)⟩

instance : IsTrans Candidate candLE := ⟨by
  intro a b c hab hbc
  unfold candLE at *
  rcases hab with h1 | ⟨h1, h1q⟩ <;> rcases hbc with h2 | ⟨h2, h2q⟩
  · exact Or.inl (h1.trans h2)
  · exact Or.inl (h2 ▸ h1)
  · exact Or.inl (by rw [h1]; exact h2)
  · exact Or.inr ⟨h1.trans h2, h1q.trans h2q⟩⟩

/-- `candidate_moves(analysis, sign)` from the source: each `moveInfos`
entry gets `pointsLost = sign * (root_score - d['scoreLead'])`, and the
list is sorted by the key `(order, pointsLost)`.  Python `list.sort` is a
stable sort, which insertion sort by the same total preorder reproduces
exactly. -/
def candidate_moves (analysis : Analysis) (sign : ℤ) : List Candidate :=
  let root_score := analysis.rootInfo.scoreLead
  let moves := analysis.moveInfos.map
    (fun d => mkCandidate d ((sign : ℚ) * (root_score - d.scoreLead)))
  moves.insertionSort candLE

/-- The heuristic weight knobs held as class attributes of `GTPEngine`. -/
structure Config where
  MAX_POINTS_LOST : ℚ
  SETTLED_WEIGHT : ℚ
  MIN_VISITS : ℤ
  ATTACH_PENALTY : ℚ
  TENUKI_PENALTY : ℚ
  OPPONENT_FAC : ℚ
deriving DecidableEq, Repr

/-- The class-attribute defaults: 7.5, 1.0, 1, 1.0, 0.5, 0.5. -/
def defaultConfig : Config :=
  { MAX_POINTS_LOST := 15 / 2
    SETTLED_WEIGHT := 1
    MIN_VISITS := 1
    ATTACH_PENALTY := 1
    TENUKI_PENALTY := 1 / 2
    OPPONENT_FAC := 1 / 2 }

/-- `settledness(d, player_sign)`: the sum of `|o|` over ownership
entries with `player_sign * o > 0`.  The comprehension only evaluates it
on candidates that passed the `'ownership' in d` filter, so the `getD []`
default is never observed in the pipeline. -/
def settledness (d : Candidate) (player_sign : ℤ) : ℚ :=
  (((d.ownership.getD []).filter fun o => decide ((player_sign : ℚ) * o > 0)).map
    fun o => |o|).sum

/-- `is_attachment(move)` from `query_ai_move`, verbatim: adjacent
opponent stones are counted over `dx in [-1, 0, 1]`, `dy in [-1, 0, 1]`
with `abs(dx) + abs(dy) == 1`; nearby own stones are counted over
`dx in [-2, 0, 1, 2]`, `dy in [-2 - 1, 0, 1, 2]` with
`abs(dx) + abs(dy) <= 2` (the source literally writes `-2 - 1`, and its
offset lists omit `-1`). -/
def is_attachment (board : Board) (next_player opponent : Color) : Move → Bool
  | .pass => false
  | .coords x y =>
    let attach_opponent_stones :=
      ((([-1, 0, 1] : List ℤ).flatMap fun dx =>
          ([-1, 0, 1] : List ℤ).map fun dy => (dx, dy)).countP
        fun p => decide (|p.1| + |p.2| = 1) &&
          decide (board_pos board (x + p.1) (y + p.2) = some opponent))
    let nearby_own_stones :=
      ((([-2, 0, 1, 2] : List ℤ).flatMap fun dx =>
          ([-2 - 1, 0, 1, 2] : List ℤ).map fun dy => (dx, dy)).countP
        fun p => decide (|p.1| + |p.2| ≤ 2) &&
          decide (board_pos board (x + p.1) (y + p.2) = some next_player))
    decide (1 ≤ attach_opponent_stones) && decide (nearby_own_stones = 0)

/-- The four orthogonally adjacent offsets (Manhattan distance 1). -/
def adjacentOffsets : List (ℤ × ℤ) := [(-1, 0), (0, -1), (0, 1), (1, 0)]

/-- The offsets at which the source actually checks for the mover's own
stones: the pairs from `dx in [-2, 0, 1, 2]`, `dy in [-3, 0, 1, 2]` that
survive `|dx| + |dy| <= 2`. -/
def codeOwnOffsets : List (ℤ × ℤ) :=
  [(-2, 0), (0, 0), (0, 1), (0, 2), (1, 0), (1, 1), (2, 0)]

/-- The full symmetric Manhattan-distance-2 offset set. -/
def symOffsets : List (ℤ × ℤ) :=
  (([-2, -1, 0, 1, 2] : List ℤ).flatMap fun dx =>
    ([-2, -1, 0, 1, 2] : List ℤ).map fun dy => (dx, dy)).filter
    fun p => decide (|p.1| + |p.2| ≤ 2)

/-- The attachment predicate as the specification words it: at least one
orthogonally adjacent opponent stone, and no own stone at any offset of
the full symmetric neighborhood `|dx| ≤ 2, |dy| ≤ 2, |dx| + |dy| ≤ 2`.
This is the spec-side definition, to be compared with `is_attachment`. -/
def claimedAttachment (board : Board) (next_player opponent : Color) : Move → Bool
  | .pass => false
  | .coords x y =>
    (adjacentOffsets.any fun p =>
      decide (board_pos board (x + p.1) (y + p.2) = some opponent)) &&
    (symOffsets.all fun p =>
      decide (board_pos board (x + p.1) (y + p.2) ≠ some next_player))

/-- `is_tenuki(move)` from `query_ai_move`: false for pass or fewer than
two recorded moves; otherwise true iff each of the last two recorded
moves (`self.moves[-2:]`) is a non-pass move at Chebyshev distance at
least 5 from the candidate. -/
def is_tenuki (moves_hist : List (Color × Move)) : Move → Bool
  | .pass => false
  | .coords x y =>
    if moves_hist.length < 2 then false
    else (moves_hist.drop (moves_hist.length - 2)).all fun pm =>
      match pm.2 with
      | .pass => false
      | .coords px py => decide (5 ≤ max |px - x| |py - y|)

/-- The tuple built for each surviving candidate in
`moves_with_settledness`:
`(move, settledness(d, sign), settledness(d, -sign), is_attachment, is_tenuki, d)`. -/
structure ScoredMove where
  move : Move
  settled : ℚ
  opp_settled : ℚ
  attach : Bool
  tenuki : Bool
  cand : Candidate
deriving DecidableEq, Repr

/-- The `moves_with_settledness` list comprehension from `query_ai_move`:
the eligibility filter followed by tuple construction. -/
def moves_with_settledness (cfg : Config) (board : Board)
    (next_player opponent : Color) (moves_hist : List (Color × Move))
    (sign : ℤ) (cands : List Candidate) : List ScoredMove :=
  (cands.filter fun d =>
      decide (d.pointsLost < cfg.MAX_POINTS_LOST) &&
      d.ownership.isSome &&
      (decide (d.order ≤ 1) || decide (cfg.MIN_VISITS ≤ d.visits)) &&
      (!(decide (d.move = Move.pass)) || decide (d.pointsLost < 3 / 4))).map
    fun d =>
      { move := d.move
        settled := settledness d sign
        opp_settled := settledness d (-sign)
        attach := is_attachment board next_player opponent d.move
        tenuki := is_tenuki moves_hist d.move
        cand := d }

/-- The composite sort key of the final `moves_with_settledness.sort`:
`pointsLost + ATTACH_PENALTY * is_attachment + TENUKI_PENALTY * is_tenuki
- SETTLED_WEIGHT * (settledness + OPPONENT_FAC * opponent_settledness)`. -/
def score (cfg : Config) (t : ScoredMove) : ℚ :=
  t.cand.pointsLost
    + cfg.ATTACH_PENALTY * (if t.attach then 1 else 0)
    + cfg.TENUKI_PENALTY * (if t.tenuki then 1 else 0)
    - cfg.SETTLED_WEIGHT * (t.settled + cfg.OPPONENT_FAC * t.opp_settled)

/-- The error message raised when the filtered candidate list is empty
(the apostrophe-free prefix of the message in the source). -/
def noMovesMsg : String := "No moves found"

/-- The final selection of `query_ai_move`: stable-sort the scored list
by the composite key and take the first element, raising (modelled as
`Except.error`) when the list is empty. -/
def select_move (cfg : Config) (l : List ScoredMove) : Except String ScoredMove :=
  match l.insertionSort (fun a b => score cfg a ≤ score cfg b) with
  | [] => .error noMovesMsg
  | t :: _ => .ok t

/-- The mutable session state of `GTPEngine` (fields read by the claims;
`score_lead`, used only for diagnostic output, is omitted). -/
structure GameState where
  size : ℤ
  komi : ℚ
  board : Board
  handicap_stones : List (Color × Move)
  moves : List (Color × Move)
  next_player : Color
  consecutive_passes : ℤ

/-- The `play` command handler after argument decoding: a pass appends to
the history and increments `consecutive_passes`; a board move appends,
places the stone and resets `consecutive_passes` to 0; either way the
side to move becomes the opponent of the color just played. -/
def play (st : GameState) (player : Color) (mv : Move) : GameState :=
  match mv with
  | .pass =>
    { st with
      moves := st.moves ++ [(player, Move.pass)]
      consecutive_passes := st.consecutive_passes + 1
      next_player := player.opponent }
  | .coords r c =>
    { st with
      moves := st.moves ++ [(player, Move.coords r c)]
      board := st.board.playStone r c player
      consecutive_passes := 0
      next_player := player.opponent }

/-- The state-recording tail of `genmove`, given the string `ai_move`
produced by the query step: `'pass'` and `'resign'` both append a pass
for the mover; any other string is decoded and placed on the board (a
decode failure would raise, modelled as `none`).  The side to move flips
and the string itself is the GTP response.  `consecutive_passes` is not
touched on this path. -/
def genmove_record (st : GameState) (ai_move : String) : Option (GameState × String) :=
  let opponent := st.next_player.opponent
  if ai_move = "pass" ∨ ai_move = "resign" then
    some ({ st with
            moves := st.moves ++ [(st.next_player, Move.pass)]
            next_player := opponent }, ai_move)
  else
    match str_to_sgfmill ai_move with
    | none => none
    | some (r, c) =>
      some ({ st with
              moves := st.moves ++ [(st.next_player, Move.coords r c)]
              board := st.board.playStone r c st.next_player
              next_player := opponent }, ai_move)

/-- `should_resign(root_info)` from the source, with its exact
parenthesization: the `rawVarTimeLeft < 0.01` conjunct encloses only the
Black-mover clause; the White-mover clause stands alone after `or`. -/
def should_resign (next_player : Color) (root_info : RootInfo) : Bool :=
  (decide (root_info.rawVarTimeLeft < 1 / 100) &&
    (decide (next_player = Color.b) && decide (root_info.scoreLead < -40) &&
      decide (root_info.winrate < 3 / 100))) ||
  (decide (next_player = Color.w) && decide (root_info.scoreLead > 40) &&
    decide (root_info.winrate > 97 / 100))

/-- `triple_pass(analysis)` from the source.  Python `and` evaluates left
to right, so `analysis['moveInfos'][0]` (an `IndexError` on an empty
list, modelled as `none`) is reached only when the first two conjuncts
hold; note the strict `len(self.moves) > 2 * self.size`. -/
def triple_pass (st : GameState) (analysis : Analysis) : Option Bool :=
  if 3 ≤ st.consecutive_passes ∧ 2 * st.size < (st.moves.length : ℤ) then
    match analysis.moveInfos with
    | [] => none
    | mi :: _ => some (decide (mi.scoreStdev < 2))
  else some false

/-- The decision pipeline of `query_ai_move` (default mode): the
current-player assertion, the resignation test, the top-candidate pass
shortcut, the triple-pass test, then eligibility filtering, scoring and
selection.  Raised exceptions are modelled as `none`; the returned GTP
string of a selected move is its encoding. -/
def query_ai_move (cfg : Config) (st : GameState) (analysis : Analysis) : Option String :=
  let sign : ℤ := if st.next_player = Color.b then 1 else -1
  if analysis.rootInfo.currentPlayer ≠ st.next_player then none
  else if should_resign st.next_player analysis.rootInfo then some "resign"
  else
    match candidate_moves analysis sign with
    | [] => none
    | c0 :: _ =>
      if c0.move = Move.pass then some "pass"
      else
        match triple_pass st analysis with
        | none => none
        | some true => some "pass"
        | some false =>
          match select_move cfg
              (moves_with_settledness cfg st.board st.next_player
                st.next_player.opponent st.moves sign
                (candidate_moves analysis sign)) with
          | .error _ => none
          | .ok t => sgfmill_to_str t.move

/-! ### Concrete instances used by counterexamples and witnesses -/

/-- A White-mover root info with plenty of thinking time left and a
lopsided position. -/
def c1WhiteRoot : RootInfo :=
  { currentPlayer := Color.w, scoreLead := 41, winrate := 98 / 100, rawVarTimeLeft := 1 }

/-- A 19x19 board with a White stone at (10, 9) and a Black stone at
(8, 9). -/
def c2Board : Board :=
  { size := 19
    stones := fun p =>
      if p = (10, 9) then some Color.w
      else if p = (8, 9) then some Color.b
      else none }

/-- A raw move info used to build concrete candidates. -/
def cMoveInfo (r c : ℤ) : MoveInfo :=
  { move := Move.coords r c, order := 0, visits := 100, scoreLead := 0,
    scoreStdev := 1, ownership := some [] }

/-- A two-element scored list whose second element has the lower
composite score. -/
def c3List : List ScoredMove :=
  [{ move := Move.coords 3 3, settled := 0, opp_settled := 0, attach := false,
     tenuki := false, cand := mkCandidate (cMoveInfo 3 3) 2 },
   { move := Move.coords 4 4, settled := 0, opp_settled := 0, attach := false,
     tenuki := false, cand := mkCandidate (cMoveInfo 4 4) 1 }]

/-- A session state in which one pass has just been played. -/
def c6State : GameState :=
  { size := 19, komi := 15 / 2, board := emptyBoard 19, handicap_stones := [],
    moves := [(Color.w, Move.pass)], next_player := Color.b, consecutive_passes := 1 }

/-- The state and response produced by `genmove_record c6State "pass"`. -/
def c6GenResult : GameState × String :=
  ({ c6State with
      moves := c6State.moves ++ [(Color.b, Move.pass)]
      next_player := Color.w }, "pass")

/-- The top backend candidate used in the triple-pass scenarios. -/
def c7Mi : MoveInfo := cMoveInfo 3 3

/-- The root info of the triple-pass scenario analysis. -/
def c7Root : RootInfo :=
  { currentPlayer := Color.b, scoreLead := 0, winrate := 1 / 2, rawVarTimeLeft := 100 }

/-- An analysis whose single candidate is a stable non-pass move and
whose root does not trigger resignation. -/
def c7Analysis : Analysis := { rootInfo := c7Root, moveInfos := [c7Mi] }

/-- Three consecutive passes recorded, 39 moves played on a 19x19 board. -/
def c7State : GameState :=
  { size := 19, komi := 15 / 2, board := emptyBoard 19, handicap_stones := [],
    moves := List.replicate 39 (Color.b, Move.pass), next_player := Color.b,
    consecutive_passes := 3 }

/-- Same, but with exactly 2 x 19 = 38 moves played. -/
def c7bState : GameState :=
  { c7State with moves := List.replicate 38 (Color.b, Move.pass) }

/-- The single candidate `candidate_moves` produces for `c7Analysis`. -/
def c7Cand : Candidate := mkCandidate c7Mi 0

end AnalysisBot

namespace AnalysisBot

/-! ### Helper lemmas -/

/-- Counting with a conjunction of predicates is counting the second
over the filtration by the first. -/
theorem countP_and_filter {α : Type} (f g : α → Bool) :
    ∀ l : List α, (l.countP fun a => f a && g a) = (l.filter f).countP g := by
  intro l
  induction l with
  | nil => rfl
  | cons a l ih =>
    by_cases hf : f a
    · by_cases hg : g a <;>
        simp [List.countP_cons, List.filter_cons, hf, hg, ih]
    · simp [List.countP_cons, List.filter_cons, hf, ih]

/-- `listIndex` fails exactly on characters that do not occur. -/
theorem listIndex_eq_none (c : Char) :
    ∀ l : List Char, listIndex c l = none ↔ c ∉ l := by
  intro l
  induction l with
  | nil => simp [listIndex]
  | cons x xs ih =>
    by_cases hx : x = c
    · simp [listIndex, hx]
    · simp [listIndex, hx, ih, Ne.symm hx]

/-- The head of an insertion sort by a rational key is the first element
of the input attaining the minimal key (insertion sort is stable). -/
theorem insertionSort_head_first_min {α : Type} (key : α → ℚ) :
    ∀ l : List α, l ≠ [] →
      ∃ t rest l₁ l₂,
        l.insertionSort (fun a b => key a ≤ key b) = t :: rest ∧
        l = l₁ ++ t :: l₂ ∧ (∀ u ∈ l₁, key t < key u) ∧ ∀ u ∈ l, key t ≤ key u := by
  intro l
  induction l with
  | nil => intro h; exact absurd rfl h
  | cons a l ih =>
    intro _
    rcases eq_or_ne l [] with rfl | hl
    · exact ⟨a, [], [], [], by simp, rfl, by simp, by simp⟩
    · obtain ⟨t, rest, l₁, l₂, hsort, hdec, hpre, hmin⟩ := ih hl
      by_cases hat : key a ≤ key t
      · refine ⟨a, t :: rest, [], l, ?_, rfl, by simp, ?_⟩
        · simp [hsort, List.orderedInsert, hat]
        · intro u hu
          rcases List.mem_cons.mp hu with rfl | hu
          · exact le_refl _
          · exact le_trans hat (hmin u hu)
      · push_neg at hat
        refine ⟨t, rest.orderedInsert (fun a b => key a ≤ key b) a, a :: l₁, l₂,
          ?_, by rw [hdec]; rfl, ?_, ?_⟩
        · simp [hsort, List.orderedInsert, not_le.mpr hat]
        · intro u hu
          rcases List.mem_cons.mp hu with rfl | hu
          · exact hat
          · exact hpre u hu
        · intro u hu
          rcases List.mem_cons.mp hu with rfl | hu
          · exact le_of_lt hat
          · exact hmin u hu

/-- Round trip on all coordinates below the alphabet length. -/
theorem roundtrip_lt25 : ∀ row : ℕ, row < 25 → ∀ col : ℕ, col < 25 →
    (sgfmill_to_str (Move.coords (row : ℤ) (col : ℤ))).bind str_to_sgfmill =
      some ((row : ℤ), (col : ℤ)) := by decide

/-! ### C1: the resignation test -/

/-- The branch structure of `should_resign` at the propositional level:
the time-budget conjunct governs only the Black-mover clause. -/
theorem should_resign_true_iff (p : Color) (ri : RootInfo) :
    should_resign p ri = true ↔
      (ri.rawVarTimeLeft < 1 / 100 ∧ p = Color.b ∧ ri.scoreLead < -40 ∧
        ri.winrate < 3 / 100) ∨
      (p = Color.w ∧ ri.scoreLead > 40 ∧ ri.winrate > 97 / 100) := by
  simp only [should_resign, Bool.or_eq_true, Bool.and_eq_true, decide_eq_true_eq]
  tauto

/-- C1 counterexample: the claim says the time-budget condition
(`rawVarTimeLeft` below the small fixed bound) is required for BOTH the
Black-mover and the White-mover case.  For mover White with
`scoreLead = 41`, `winrate = 0.98` and `rawVarTimeLeft = 1` (far above
the 0.01 bound), `should_resign` nevertheless returns `true`: the
parenthesization in the source attaches the time conjunct only to the
Black-mover clause. -/
theorem should_resign_white_ignores_time :
    should_resign Color.w c1WhiteRoot = true ∧
      ¬ c1WhiteRoot.rawVarTimeLeft < 1 / 100 := by
  constructor
  · rw [should_resign_true_iff]
    right
    refine ⟨rfl, ?_, ?_⟩ <;> norm_num [c1WhiteRoot]
  · norm_num [c1WhiteRoot]

/-- C1 amended: `should_resign` returns true iff either (a) the
time-budget is negligible AND the mover is Black with `scoreLead < -40`
and `winrate < 0.03`, or (b) the mover is White with `scoreLead > 40`
and `winrate > 0.97` — with no time-budget condition in the White case.
The claim's concrete Black-mover boundary instances are unchanged:
`scoreLead = -41, winrate = 0.02, rawVarTimeLeft = 0.005` resigns and
`scoreLead = -39` with the same other values does not. -/
theorem should_resign_iff (p : Color) (ri : RootInfo) :
    (should_resign p ri = true ↔
      (ri.rawVarTimeLeft < 1 / 100 ∧ p = Color.b ∧ ri.scoreLead < -40 ∧
        ri.winrate < 3 / 100) ∨
      (p = Color.w ∧ ri.scoreLead > 40 ∧ ri.winrate > 97 / 100)) ∧
    should_resign Color.b
      { currentPlayer := Color.b, scoreLead := -41, winrate := 2 / 100,
        rawVarTimeLeft := 5 / 1000 } = true ∧
    should_resign Color.b
      { currentPlayer := Color.b, scoreLead := -39, winrate := 2 / 100,
        rawVarTimeLeft := 5 / 1000 } = false := by
  refine ⟨should_resign_true_iff p ri, ?_, ?_⟩
  · rw [should_resign_true_iff]
    left
    refine ⟨?_, rfl, ?_, ?_⟩ <;> norm_num
  · rw [Bool.eq_false_iff, Ne, should_resign_true_iff]
    rintro (⟨_, _, h, _⟩ | ⟨h, _⟩)
    · norm_num at h
    · cases h

/-! ### C8: decoder failure conditions -/

/-- C8 counterexample: the claim says the decoder fails whenever the
numeric suffix is not a positive integer at most the board size, and
that every accepted string is on-board (row at least 0).  But
`str_to_sgfmill "A0"` succeeds and returns row `-1`: the source never
checks positivity or the board size. -/
theorem str_to_sgfmill_accepts_offboard :
    str_to_sgfmill "A0" = some (-1, 0) ∧ ¬ (0 : ℤ) ≤ -1 := by decide

/-- C8 amended: the decoder fails iff the string is empty, its first
character is outside the 25-letter alphabet that skips I, or its
remainder is not parseable as an optionally signed decimal integer.  No
positivity or board-size check is performed, so accepted strings may
denote off-board coordinates (as the counterexample shows). -/
theorem str_to_sgfmill_fails_iff (s : String) :
    str_to_sgfmill s = none ↔
      s.data = [] ∨ ∃ c rest, s.data = c :: rest ∧
        (c ∉ COLS ∨ parseInt (String.mk rest) = none) := by
  unfold str_to_sgfmill
  cases h : s.data with
  | nil => simp
  | cons c rest =>
    rcases hp : parseInt (String.mk rest) with _ | n
    · simp only [hp]
      constructor
      · intro _
        exact Or.inr ⟨c, rest, rfl, Or.inr hp⟩
      · intro _
        trivial
    · rcases hi : listIndex c COLS with _ | k
      · simp only [hp, hi]
        constructor
        · intro _
          exact Or.inr ⟨c, rest, rfl, Or.inl ((listIndex_eq_none c COLS).mp hi)⟩
        · intro _
          trivial
      · simp only [hp, hi]
        constructor
        · intro hcontra
          exact absurd hcontra (by simp)
        · rintro (hnil | ⟨c1, rest1, hcr, hbad | hbad⟩)
          · exact absurd hnil (by simp)
          · obtain ⟨rfl, rfl⟩ := List.cons.injEq .. ▸ hcr
            rw [← listIndex_eq_none c COLS] at hbad
            rw [hbad] at hi
            exact absurd hi (by simp)
          · obtain ⟨rfl, rfl⟩ := List.cons.injEq .. ▸ hcr
            rw [hbad] at hp
            exact absurd hp (by simp)

/-! ### C9: coordinate round trip -/

/-- C9: for every valid coordinate `(row, col)` on a board of size at
most 25, decoding the encoding returns the coordinate, and the `pass`
sentinel encodes to the literal string `"pass"`. -/
theorem decode_encode_roundtrip (size row col : ℕ)
    (hs : size ≤ 25) (hr : row < size) (hc : col < size) :
    (sgfmill_to_str (Move.coords (row : ℤ) (col : ℤ))).bind str_to_sgfmill =
      some ((row : ℤ), (col : ℤ)) ∧
    sgfmill_to_str Move.pass = some "pass" :=
  ⟨roundtrip_lt25 row (lt_of_lt_of_le hr hs) col (lt_of_lt_of_le hc hs), rfl⟩

/-- C9 witness: the round trip at `(18, 18)` on a 19x19 board. -/
theorem decode_encode_roundtrip_witness :
    (sgfmill_to_str (Move.coords (18 : ℤ) (18 : ℤ))).bind str_to_sgfmill =
      some ((18 : ℤ), (18 : ℤ)) ∧
    sgfmill_to_str Move.pass = some "pass" :=
  decode_encode_roundtrip 19 18 18 (by decide) (by decide) (by decide)

/-! ### C10: resignation records a pass -/

/-- C10: when `genmove` resigns, the session appends a pass move for the
resigning side to the history (no distinct resignation marker), flips
the side to move, leaves every other state field — in particular board
occupancy — unchanged, and answers with the token `"resign"`. -/
theorem genmove_resign_records_pass (st : GameState) :
    genmove_record st "resign" =
      some ({ st with
              moves := st.moves ++ [(st.next_player, Move.pass)]
              next_player := st.next_player.opponent }, "resign") := by
  unfold genmove_record
  rw [if_pos (Or.inr rfl)]

/-! ### C6: the consecutive-pass counter -/

/-- C6 counterexample: the claim says the counter increments whenever a
pass is recorded, also when appended by `genmove`.  Starting from a
state with counter 1, `genmove` appending its own pass leaves the
counter at 1 instead of 2: `genmove` never touches
`consecutive_passes`. -/
theorem genmove_pass_keeps_counter :
    (genmove_record c6State "pass").map (fun r => r.1.consecutive_passes) = some 1 ∧
      (1 : ℤ) ≠ 1 + 1 := ⟨rfl, by decide⟩

/-- C6 amended: the counter is updated only by the `play` command —
reset to 0 on a non-pass move and incremented on a pass, for either
color — while `genmove` leaves it unchanged whatever move it records. -/
theorem consecutive_passes_update (st : GameState) (player : Color)
    (mv : Move) (s : String) :
    ((play st player mv).consecutive_passes =
      if mv = Move.pass then st.consecutive_passes + 1 else 0) ∧
    ∀ res, genmove_record st s = some res →
      res.1.consecutive_passes = st.consecutive_passes := by
  constructor
  · cases mv <;> simp [play]
  · intro res h
    unfold genmove_record at h
    split at h
    · cases h; rfl
    · split at h
      · exact absurd h (by simp)
      · cases h; rfl

/-- C6 witness: the two update rules at concrete inputs. -/
theorem consecutive_passes_update_witness :
    (play c6State Color.b Move.pass).consecutive_passes =
      (if Move.pass = Move.pass then c6State.consecutive_passes + 1 else 0) ∧
    c6GenResult.1.consecutive_passes = c6State.consecutive_passes :=
  ⟨(consecutive_passes_update c6State Color.b Move.pass "pass").1,
   (consecutive_passes_update c6State Color.b Move.pass "pass").2 c6GenResult rfl⟩

/-! ### C5: candidate normalization and ordering -/

/-- C5: `candidate_moves` returns exactly the raw candidates, each
augmented with `pointsLost = sign * (rootScore - scoreLead)` (a
permutation of that pointwise image), sorted so that backend `order` is
the primary ascending key and `pointsLost` breaks ties within equal
order. -/
theorem candidate_moves_spec (analysis : Analysis) (sign : ℤ) :
    List.Sorted candLE (candidate_moves analysis sign) ∧
    (candidate_moves analysis sign).Perm
      (analysis.moveInfos.map fun d =>
        mkCandidate d ((sign : ℚ) * (analysis.rootInfo.scoreLead - d.scoreLead))) ∧
    ∀ c ∈ candidate_moves analysis sign,
      c.pointsLost = (sign : ℚ) * (analysis.rootInfo.scoreLead - c.scoreLead) := by
  refine ⟨List.sorted_insertionSort candLE _, List.perm_insertionSort candLE _, ?_⟩
  intro c hc
  simp only [candidate_moves, List.mem_insertionSort] at hc
  obtain ⟨d, _, rfl⟩ := List.mem_map.mp hc
  rfl

/-! ### C4: the eligibility filter -/

/-- C4: a candidate survives into the scored list iff it came from the
input list with `pointsLost < MAX_POINTS_LOST`, it carries an ownership
array, its backend order is at most 1 or its visits reach `MIN_VISITS`,
and — when it is the pass candidate — its `pointsLost` is below 0.75. -/
theorem eligibility_filter (cfg : Config) (board : Board) (np opp : Color)
    (hist : List (Color × Move)) (sign : ℤ) (cands : List Candidate)
    (d : Candidate) :
    d ∈ (moves_with_settledness cfg board np opp hist sign cands).map
        (fun t => t.cand) ↔
      d ∈ cands ∧ d.pointsLost < cfg.MAX_POINTS_LOST ∧ d.ownership.isSome = true ∧
        (d.order ≤ 1 ∨ cfg.MIN_VISITS ≤ d.visits) ∧
        (d.move = Move.pass → d.pointsLost < 3 / 4) := by
  simp only [moves_with_settledness, List.map_map, Function.comp, List.mem_map,
    List.mem_filter, Bool.and_eq_true, Bool.or_eq_true, Bool.not_eq_true',
    decide_eq_true_eq, decide_eq_false_iff_not]
  constructor
  · rintro ⟨a, ⟨ha, ⟨⟨h1, h2⟩, h3⟩, h4⟩, rfl⟩
    exact ⟨ha, h1, h2, h3, fun hp => h4.resolve_left (fun hne => hne hp)⟩
  · rintro ⟨ha, h1, h2, h3, h4⟩
    refine ⟨d, ⟨ha, ⟨⟨h1, h2⟩, h3⟩, ?_⟩, rfl⟩
    by_cases hp : d.move = Move.pass
    · exact Or.inr (h4 hp)
    · exact Or.inl hp

/-! ### C3: composite score and selection -/

/-- C3: on a nonempty scored list the selector returns the first
list element attaining the minimal composite score
(`pointsLost + ATTACH_PENALTY * isAttachment + TENUKI_PENALTY * isTenuki
- SETTLED_WEIGHT * (settledness + OPPONENT_FAC * opponentSettledness)`,
ties broken by position since the sort is stable); on the empty list it
raises the no-eligible-moves error. -/
theorem select_move_spec (cfg : Config) (l : List ScoredMove) :
    (l = [] → select_move cfg l = .error noMovesMsg) ∧
    (l ≠ [] → ∃ t l₁ l₂, select_move cfg l = .ok t ∧ l = l₁ ++ t :: l₂ ∧
      (∀ u ∈ l₁, score cfg t < score cfg u) ∧
      ∀ u ∈ l, score cfg t ≤ score cfg u) := by
  constructor
  · rintro rfl
    rfl
  · intro hl
    obtain ⟨t, rest, l₁, l₂, hsort, hdec, hpre, hmin⟩ :=
      insertionSort_head_first_min (score cfg) l hl
    refine ⟨t, l₁, l₂, ?_, hdec, hpre, hmin⟩
    unfold select_move
    rw [hsort]

/-- C3 witness: selection on a concrete two-element scored list. -/
theorem select_move_spec_witness :
    ∃ t l₁ l₂, select_move defaultConfig c3List = .ok t ∧
      c3List = l₁ ++ t :: l₂ ∧
      (∀ u ∈ l₁, score defaultConfig t < score defaultConfig u) ∧
      ∀ u ∈ c3List, score defaultConfig t ≤ score defaultConfig u :=
  (select_move_spec defaultConfig c3List).2 (by simp [c3List])

/-! ### C2: the attachment test -/

/-- The distance-1 filtration of the offsets actually generated for the
adjacent-opponent count. -/
theorem attach_filter_eq :
    ((([-1, 0, 1] : List ℤ).flatMap fun dx =>
        ([-1, 0, 1] : List ℤ).map fun dy => (dx, dy)).filter
      fun p => decide (|p.1| + |p.2| = 1)) = adjacentOffsets := by decide

/-- The distance-2 filtration of the offsets actually generated for the
own-stone count: `dx = -1` and negative `dy` never appear. -/
theorem own_filter_eq :
    ((([-2, 0, 1, 2] : List ℤ).flatMap fun dx =>
        ([-2 - 1, 0, 1, 2] : List ℤ).map fun dy => (dx, dy)).filter
      fun p => decide (|p.1| + |p.2| ≤ 2)) = codeOwnOffsets := by decide

/-- C2 counterexample: the claim says an own stone anywhere in the full
symmetric Manhattan-distance-2 neighborhood makes `isAttachment` false.
On `c2Board` the Black mover considers (9, 9): it touches the White
stone at (10, 9), and Black has an own stone at (8, 9) — offset
`(dx, dy) = (-1, 0)`, inside the claimed neighborhood.  The claimed
predicate is therefore false, yet the source returns true, because its
offset lists never check `dx = -1`. -/
theorem attachment_ignores_dx_neg_one :
    is_attachment c2Board Color.b Color.w (Move.coords 9 9) = true ∧
    claimedAttachment c2Board Color.b Color.w (Move.coords 9 9) = false := by decide

/-- C2 amended: `isAttachment` is true iff the candidate is a non-pass
coordinate with at least one orthogonally adjacent opponent stone and no
own stone at any of the SEVEN offsets the source actually checks —
`(-2,0), (0,0), (0,1), (0,2), (1,0), (1,1), (2,0)` — i.e. the
distance-at-most-2 offsets drawn from `dx ∈ {-2,0,1,2}` and
`dy ∈ {-3,0,1,2}`; own stones at the omitted offsets (such as
`dx = -1`) do not flip the flag.  For a pass candidate the flag is
false. -/
theorem is_attachment_iff (board : Board) (next_player opponent : Color)
    (m : Move) :
    is_attachment board next_player opponent m = true ↔
      ∃ x y, m = Move.coords x y ∧
        (∃ p ∈ adjacentOffsets,
          board_pos board (x + p.1) (y + p.2) = some opponent) ∧
        ∀ p ∈ codeOwnOffsets,
          board_pos board (x + p.1) (y + p.2) ≠ some next_player := by
  cases m with
  | pass => simp [is_attachment]
  | coords x y =>
    simp only [is_attachment, Bool.and_eq_true, decide_eq_true_eq]
    simp only [countP_and_filter]
    rw [attach_filter_eq, own_filter_eq]
    constructor
    · rintro ⟨h1, h2⟩
      refine ⟨x, y, rfl, ?_, ?_⟩
      · obtain ⟨q, hq, hqq⟩ := List.countP_pos_iff.mp h1
        exact ⟨q, hq, of_decide_eq_true hqq⟩
      · intro q hq hcontra
        exact List.countP_eq_zero.mp h2 q hq (decide_eq_true hcontra)
    · rintro ⟨a, b, hab, ⟨q, hq, hqq⟩, hall⟩
      injection hab with hx hy
      subst hx
      subst hy
      refine ⟨List.countP_pos_iff.mpr ⟨q, hq, decide_eq_true hqq⟩, ?_⟩
      refine List.countP_eq_zero.mpr ?_
      intro a ha hda
      exact hall a ha (of_decide_eq_true hda)

/-! ### C7: the triple-pass test -/

/-- C7 counterexample: the claim says a total move count of exactly
`2 × boardSize` suffices.  With three consecutive passes, exactly
38 = 2 × 19 moves played and a stable top candidate (`scoreStdev = 1`),
`triple_pass` returns `false`: the source requires strictly more than
`2 × boardSize` moves. -/
theorem triple_pass_at_exact_boundary :
    3 ≤ c7bState.consecutive_passes ∧
    (c7bState.moves.length : ℤ) = 2 * c7bState.size ∧
    c7Analysis.moveInfos = [c7Mi] ∧ c7Mi.scoreStdev < 2 ∧
    triple_pass c7bState c7Analysis = some false := by
  refine ⟨by norm_num [c7bState, c7State], ?_, rfl,
    by norm_num [c7Mi, cMoveInfo], ?_⟩
  · norm_num [c7bState, c7State]
  · unfold triple_pass
    rw [if_neg]
    rintro ⟨-, h⟩
    rw [show c7bState.moves.length = 38 from rfl] at h
    norm_num [c7bState, c7State] at h

/-- C7 amended: the triple-pass auto-pass fires iff the consecutive-pass
counter is at least 3, STRICTLY more than `2 × boardSize` moves have
been played, and the backend's top candidate has `scoreStdev < 2`; and
whenever it fires (the session not having resigned and the top
candidate not being pass), `genmove`'s query step answers pass
regardless of the evaluator's scoring. -/
theorem triple_pass_fires (cfg : Config) (st : GameState) (analysis : Analysis) :
    (∀ mi rest, analysis.moveInfos = mi :: rest →
      (triple_pass st analysis = some true ↔
        3 ≤ st.consecutive_passes ∧ 2 * st.size < (st.moves.length : ℤ) ∧
          mi.scoreStdev < 2)) ∧
    (analysis.rootInfo.currentPlayer = st.next_player →
      should_resign st.next_player analysis.rootInfo = false →
      ∀ c0 crest,
        candidate_moves analysis (if st.next_player = Color.b then 1 else -1) =
          c0 :: crest →
        c0.move ≠ Move.pass →
        triple_pass st analysis = some true →
        query_ai_move cfg st analysis = some "pass") := by
  constructor
  · intro mi rest hmi
    unfold triple_pass
    rw [hmi]
    by_cases hc : 3 ≤ st.consecutive_passes ∧ 2 * st.size < (st.moves.length : ℤ)
    · rw [if_pos hc]
      simp only [Option.some.injEq, decide_eq_true_eq]
      constructor
      · intro h2
        exact ⟨hc.1, hc.2, h2⟩
      · intro h2
        exact h2.2.2
    · rw [if_neg hc]
      constructor
      · intro h2
        exact absurd (Option.some.inj h2) (by simp)
      · intro h2
        exact absurd ⟨h2.1, h2.2.1⟩ hc
  · intro hcur hres c0 crest hcand hc0 hfire
    simp [query_ai_move, hcur, hres, hcand, hc0, hfire]

/-- C7 witness: the firing condition and the forced pass in the concrete
39-move scenario. -/
theorem triple_pass_fires_witness :
    (triple_pass c7State c7Analysis = some true ↔
      3 ≤ c7State.consecutive_passes ∧
        2 * c7State.size < (c7State.moves.length : ℤ) ∧ c7Mi.scoreStdev < 2) ∧
    query_ai_move defaultConfig c7State c7Analysis = some "pass" := by
  refine ⟨(triple_pass_fires defaultConfig c7State c7Analysis).1 c7Mi [] rfl,
    (triple_pass_fires defaultConfig c7State c7Analysis).2 rfl ?_ c7Cand [] ?_
      (by decide) ?_⟩
  · rw [Bool.eq_false_iff, Ne, should_resign_true_iff]
    rintro (⟨h, -⟩ | ⟨h, -⟩)
    · norm_num [c7Analysis, c7Root] at h
    · cases h
  · show candidate_moves c7Analysis 1 = [c7Cand]
    norm_num [candidate_moves, c7Analysis, c7Root, c7Mi, cMoveInfo, mkCandidate,
      c7Cand, List.insertionSort]
  · unfold triple_pass
    rw [if_pos]
    · norm_num [c7Analysis, c7Mi, cMoveInfo]
    · constructor
      · norm_num [c7State]
      · rw [show c7State.moves.length = 39 from rfl]
        norm_num [c7State]

end AnalysisBot
